import Mathlib

/-!
Verification development for the servers.com UI test suite.

The repository drives a browser through Playwright.  We embed the decision
logic of its page objects shallowly: a `Page` is an oracle answering the
visibility and count queries the code performs, locators become an inductive
datatype mirroring the selector expressions built by the code, and every
stateful method becomes a pure function producing either a resolved locator
or a trace (list) of the UI actions it issues, in order.  Machine-level
concerns (actual DOM state, timing) live behind the oracle; the control flow,
the selector construction and the ordering of issued actions are translated
line by line from the TypeScript sources.

JavaScript quirks are modelled explicitly where the code relies on them:
  * `x ?? d`  becomes `Option.getD`;
  * `x || d` on numbers treats `0` as absent (falsy);
  * `if (str)` treats the empty string as absent (falsy);
  * indexing past the end of an array yields `undefined`, which a template
    literal renders as the string "undefined";
  * `locator.isVisible().catch(() => false)` is a non-throwing visibility
    check: an error from the oracle counts as `false`.
-/

namespace ServersComSpec

/-- The three layout regimes of `getViewportType`: `mobile` (Compact),
`desktopSmall` (IconOnly), `desktopLarge` (Expanded). -/
inductive ViewportType where
  | mobile
  | desktopSmall
  | desktopLarge
deriving DecidableEq

/-- Locator expressions built by the menu code, one constructor per distinct
selector shape appearing in `src/utils.ts` and `SideMenuComponent`.
Each locator stands for the `.first()` match of its selector. -/
inductive Loc where
  /-- `li:has(span:text-is(name))` : structural exact match on hidden label. -/
  | liSpanTextIs (name : String)
  /-- `li:has(span:text(name))` : structural substring match on hidden label. -/
  | liSpanText (name : String)
  /-- `page.getByText(name, { exact: true })`. -/
  | textExact (name : String)
  /-- `page.getByRole('link', { name, exact: true })`. -/
  | linkExact (name : String)
  /-- `page.getByAltText(name, { exact: true })`. -/
  | altExact (name : String)
  /-- `img.locator('xpath=ancestor::a[1]')` : nearest enclosing link. -/
  | ancestorLink (img : Loc)
  /-- `page.getByText(name)` : substring text match. -/
  | textContains (name : String)
  /-- `page.getByRole('link', { name })` : substring accessible-name match. -/
  | linkContains (name : String)
  /-- `li:has(> span:has-text(name))` : mobile parent list-item scope. -/
  | liChildSpanHasText (name : String)
  /-- `parent.locator('ul').getByText(name, { exact: true })` : sub-entry
  inside the entry's dropdown list. -/
  | ulGetByTextExact (parent : Loc) (name : String)
  /-- `page.getByText('Dashboard', { exact: true })` : the fixed anchor. -/
  | dashboardText
  /-- The hamburger button: first `button` containing an `svg`. -/
  | mobileMenuButton
deriving DecidableEq

/-- Outcome of a raw `locator.isVisible()` call: a boolean, or a thrown
error (`err`). -/
inductive VisResult where
  | ok (b : Bool)
  | err
deriving DecidableEq

/-- Semantics of `.catch(() => false)` applied to a visibility check. -/
def catchFalse : VisResult → Bool
  | .ok b => b
  | .err => false

/-- The oracle a page presents to the code: raw visibility answers, element
counts, and the viewport width reported by `page.viewportSize()?.width`. -/
structure Page where
  vis : Loc → VisResult
  cnt : Loc → Nat
  viewportWidth : Option Nat

/-- `await locator.isVisible().catch(() => false)` : the only visibility
check the resolver performs; never throws. -/
def Page.isVis (p : Page) (l : Loc) : Bool := catchFalse (p.vis l)

/-- JavaScript template-literal rendering of a possibly-`undefined` array
read: `names[0]` past the end interpolates as the string "undefined". -/
def jsStr : Option String → String
  | some s => s
  | none => "undefined"

/-- Which return site of the resolver produced a result.  The two
`*Fallback` steps are the final fallbacks that return a handle with no
visibility guarantee: the outcome the spec calls `ResolutionFailure`. -/
inductive Step where
  | iconTextIs
  | iconTextContains
  | iconFallback
  | byTextExact
  | byLinkExact
  | byAltExact
  | byTextContains
  | byLinkContains
  | finalFallback
deriving DecidableEq

/-- A per-name loop shared by both resolvers: return the first name whose
locator (under `mk`) is visible. -/
def firstVisible (p : Page) (mk : String → Loc) : List String → Option Loc
  | [] => none
  | n :: ns => if p.isVis (mk n) then some (mk n) else firstVisible p mk ns

namespace Utils

/-- The exact-match loop body of `findMenuElement` (utils.ts 229-248): for
each name in order try exact text, exact link role, exact alt text; on an
alt-text hit return the nearest enclosing link when one exists, else the
image itself. -/
def findExactPhase (p : Page) : List String → Option (Step × Loc)
  | [] => none
  | n :: ns =>
    if p.isVis (Loc.textExact n) then some (Step.byTextExact, Loc.textExact n)
    else if p.isVis (Loc.linkExact n) then some (Step.byLinkExact, Loc.linkExact n)
    else if p.isVis (Loc.altExact n) then
      some (Step.byAltExact,
        if p.cnt (Loc.ancestorLink (Loc.altExact n)) > 0 then Loc.ancestorLink (Loc.altExact n)
        else Loc.altExact n)
    else findExactPhase p ns

/-- The partial-match loop of `findMenuElement` (utils.ts 250-259): for each
name in order try substring text, then substring link name. -/
def findContainsPhase (p : Page) : List String → Option (Step × Loc)
  | [] => none
  | n :: ns =>
    if p.isVis (Loc.textContains n) then some (Step.byTextContains, Loc.textContains n)
    else if p.isVis (Loc.linkContains n) then some (Step.byLinkContains, Loc.linkContains n)
    else findContainsPhase p ns

/-- `findMenuElement` (utils.ts 202-262).  In the icon-only regime for a
top-level entry: structural exact loop, structural substring loop, then an
unguarded structural fallback on `names[0]` (which interpolates as
"undefined" when the list is empty).  Otherwise: exact phase over the whole
list, substring phase over the whole list, then an unguarded substring
fallback on `names[0] ?? ''`. -/
def findMenuElement (p : Page) (names : List String)
    (viewportType : Option ViewportType) (isSubItem : Bool) : Step × Loc :=
  if viewportType = some ViewportType.desktopSmall ∧ isSubItem = false then
    match firstVisible p Loc.liSpanTextIs names with
    | some l => (Step.iconTextIs, l)
    | none =>
      match firstVisible p Loc.liSpanText names with
      | some l => (Step.iconTextContains, l)
      | none => (Step.iconFallback, Loc.liSpanText (jsStr names.head?))
  else
    match findExactPhase p names with
    | some r => r
    | none =>
      match findContainsPhase p names with
      | some r => r
      | none => (Step.finalFallback, Loc.textContains (names.head?.getD ""))

/-- `getViewportType` (utils.ts 183-188): `page.viewportSize()?.width || 1920`
— note `||`, so a width of `0` (falsy) also falls back to 1920. -/
def getViewportType (p : Page) : ViewportType :=
  let width : Nat :=
    match p.viewportWidth with
    | some w => if w = 0 then 1920 else w
    | none => 1920
  if width < 768 then ViewportType.mobile
  else if width < 1200 then ViewportType.desktopSmall
  else ViewportType.desktopLarge

end Utils

namespace SideMenuComponent

/-- The exact-match loop of `SideMenuComponent.findMenuItem` (lines 69-79):
for each name in order try exact text then exact link role (no alt-text step
in this variant). -/
def findExactPhase (p : Page) : List String → Option (Step × Loc)
  | [] => none
  | n :: ns =>
    if p.isVis (Loc.textExact n) then some (Step.byTextExact, Loc.textExact n)
    else if p.isVis (Loc.linkExact n) then some (Step.byLinkExact, Loc.linkExact n)
    else findExactPhase p ns

/-- `SideMenuComponent.findMenuItem` (lines 49-91).  Same cascade shape as
`Utils.findMenuElement`, minus the alt-text step and the substring link
step; every visibility check goes through `BasePage.isVisible`, i.e. is
caught and treated as false on error. -/
def findMenuItem (p : Page) (names : List String) (viewportType : ViewportType) : Step × Loc :=
  if viewportType = ViewportType.desktopSmall then
    match firstVisible p Loc.liSpanTextIs names with
    | some l => (Step.iconTextIs, l)
    | none =>
      match firstVisible p Loc.liSpanText names with
      | some l => (Step.iconTextContains, l)
      | none => (Step.iconFallback, Loc.liSpanText (jsStr names.head?))
  else
    match findExactPhase p names with
    | some r => r
    | none =>
      match firstVisible p Loc.textContains names with
      | some l => (Step.byTextContains, l)
      | none => (Step.finalFallback, Loc.textContains (names.head?.getD ""))

/-- `SideMenuComponent.getViewportType` (lines 30-35):
`this.page.viewportSize()?.width ?? 1920` — note `??`, so only a missing
width falls back to 1920; a width of `0` is kept. -/
def getViewportType (p : Page) : ViewportType :=
  let width : Nat := p.viewportWidth.getD 1920
  if width < 768 then ViewportType.mobile
  else if width < 1200 then ViewportType.desktopSmall
  else ViewportType.desktopLarge

end SideMenuComponent

/-- UI actions issued by the navigation methods, in program order.
`hoverCaught` is `hover().catch(() => {})`; `scrollIntoView` is the
best-effort `scrollIntoViewIfNeeded().catch(() => {})` of `BasePage`. -/
inductive MAction where
  | hover (l : Loc)
  | hoverCaught (l : Loc)
  | click (l : Loc)
  | scrollIntoView (l : Loc)
  | waitForLoadState
deriving DecidableEq

namespace SideMenuComponent

/-- `SideMenuComponent.openMobileMenu` (lines 40-44): click the hamburger
button when it is visible, otherwise do nothing. -/
def openMobileMenu (p : Page) : List MAction :=
  if p.isVis Loc.mobileMenuButton then [MAction.click Loc.mobileMenuButton] else []

/-- `SideMenuComponent.navigateMobile` (lines 113-139).  The parent list item
is scoped by `menuNames[0] ?? ''` only; the sub-entry is looked up by
`subItemNames[0] ?? ''` with an exact text match inside that item's `ul`; if
it is not visible, the entry resolved from the full `menuNames` list is
scrolled to and clicked to expand, the sub-entry locator is rebuilt
identically, and it is then scrolled to and clicked. -/
def navigateMobile (p : Page) (menuNames : List String)
    (subItemNames : Option (List String)) : List MAction :=
  openMobileMenu p ++
  (let firstMenuName := menuNames.head?.getD ""
   match subItemNames with
   | some (firstSubItemName :: _) =>
     let menuItemLi := Loc.liChildSpanHasText firstMenuName
     let subMenuLink := Loc.ulGetByTextExact menuItemLi firstSubItemName
     (if !(p.isVis subMenuLink) then
        let menuLink := (findMenuItem p menuNames ViewportType.mobile).2
        [MAction.scrollIntoView menuLink, MAction.click menuLink]
      else []) ++
     [MAction.scrollIntoView subMenuLink, MAction.click subMenuLink]
   | _ =>
     let menuLink := (findMenuItem p menuNames ViewportType.mobile).2
     [MAction.scrollIntoView menuLink, MAction.click menuLink])

/-- `SideMenuComponent.navigateDesktopSmall` (lines 144-167): resolve the
entry, hover it to disclose the flyout; with a requested sub-entry, look it
up by `subItemNames[0] ?? ''` inside the entry's `ul`, click the entry as a
fallback when the hover did not disclose it, hover (caught) and click the
sub-entry, and finally hover the fixed Dashboard anchor to close the
flyout. -/
def navigateDesktopSmall (p : Page) (menuNames : List String)
    (subItemNames : Option (List String)) : List MAction :=
  let menuItemLocator := (findMenuItem p menuNames ViewportType.desktopSmall).2
  MAction.hover menuItemLocator ::
  (match subItemNames with
   | some (firstSubItemName :: _) =>
     let subMenuLink := Loc.ulGetByTextExact menuItemLocator firstSubItemName
     (if !(p.isVis subMenuLink) then [MAction.click menuItemLocator] else []) ++
     [MAction.hoverCaught subMenuLink, MAction.click subMenuLink,
      MAction.hover Loc.dashboardText]
   | _ => [MAction.click menuItemLocator])

/-- `SideMenuComponent.navigateDesktopLarge` (lines 172-197): with a
requested sub-entry, look it up by `subItemNames[0] ?? ''` inside the
resolved entry's `ul`; when not visible, scroll-and-click the entry to
expand and rebuild the same locator; then scroll-and-click the sub-entry
(or, with no sub-entry, scroll-and-click the entry itself). -/
def navigateDesktopLarge (p : Page) (menuNames : List String)
    (subItemNames : Option (List String)) : List MAction :=
  match subItemNames with
  | some (firstSubItemName :: _) =>
    let menuItemLocator := (findMenuItem p menuNames ViewportType.desktopLarge).2
    let subMenuLink := Loc.ulGetByTextExact menuItemLocator firstSubItemName
    (if !(p.isVis subMenuLink) then
       [MAction.scrollIntoView menuItemLocator, MAction.click menuItemLocator]
     else []) ++
    [MAction.scrollIntoView subMenuLink, MAction.click subMenuLink]
  | _ =>
    let menuItemLocator := (findMenuItem p menuNames ViewportType.desktopLarge).2
    [MAction.scrollIntoView menuItemLocator, MAction.click menuItemLocator]

/-- `SideMenuComponent.navigateTo` (lines 96-108): dispatch on the viewport
regime, then wait for the load signal. -/
def navigateTo (p : Page) (menuNames : List String)
    (subItemNames : Option (List String)) : List MAction :=
  (match getViewportType p with
   | ViewportType.mobile => navigateMobile p menuNames subItemNames
   | ViewportType.desktopSmall => navigateDesktopSmall p menuNames subItemNames
   | ViewportType.desktopLarge => navigateDesktopLarge p menuNames subItemNames) ++
  [MAction.waitForLoadState]

end SideMenuComponent

namespace Utils

/-- Environment credentials: `process.env.QA_USER` / `process.env.QA_PASS`
(absent or set). -/
structure Env where
  qaUser : Option String
  qaPass : Option String

/-- `getCredentials` (utils.ts 9-18): throws unless both variables are set
and non-empty (JS: `!username` is true for `undefined` and for `''`). -/
def getCredentials (env : Env) : Except String (String × String) :=
  match env.qaUser, env.qaPass with
  | some u, some pw =>
    if u = "" ∨ pw = "" then
      Except.error "QA_USER and QA_PASS environment variables must be set"
    else Except.ok (u, pw)
  | _, _ => Except.error "QA_USER and QA_PASS environment variables must be set"

/-- `SharedSession` (utils.ts 23-27): the browsing context and page are
opaque handles (`none` until created by `init`). -/
structure SharedSession where
  context : Option Nat
  pageHandle : Option Nat
  isInitialized : Bool
deriving DecidableEq

/-- `createSharedSession` (utils.ts 32-38). -/
def createSharedSession : SharedSession :=
  { context := none, pageHandle := none, isInitialized := false }

/-- The authentication side effects `initSharedSession` can perform, in
program order. -/
inductive AuthEffect where
  | newContext
  | newPage
  | login (username password : String)
  | waitForDashboardLoad
deriving DecidableEq

/-- `initSharedSession` (utils.ts 44-73): return immediately when the session
is already initialized; otherwise read credentials (which may throw), open a
fresh context and page, log in, wait for the dashboard, and mark the session
initialized.  `fresh` supplies the identity of the newly created context. -/
def initSharedSession (session : SharedSession) (env : Env) (fresh : Nat) :
    Except String (SharedSession × List AuthEffect) :=
  if session.isInitialized then Except.ok (session, [])
  else
    match getCredentials env with
    | Except.error e => Except.error e
    | Except.ok (u, pw) =>
      Except.ok
        ({ context := some fresh, pageHandle := some (fresh + 1), isInitialized := true },
         [AuthEffect.newContext, AuthEffect.newPage, AuthEffect.login u pw,
          AuthEffect.waitForDashboardLoad])

end Utils

namespace AccountSettingsPage

/-- Locators of the delete workflow (AccountSettingsPage.ts 156-177), scoped
to the Subscriptions widget. -/
inductive DLoc where
  /-- The `tr` containing the link named `fullName`. -/
  | row (fullName : String)
  /-- `row.locator('button:has(*[id="Icon/Trash"]))` : the trash button. -/
  | deleteBtn (fullName : String)
  /-- `page.locator('dialog[open]')` : the native confirmation dialog. -/
  | dialogOpen
  /-- `dialog.locator('button[type="submit"]', { hasText: 'Delete' })`. -/
  | confirmDeleteBtn
deriving DecidableEq

/-- Actions issued by the delete workflow, in program order. -/
inductive DAction where
  | scrollIntoView (l : DLoc)
  | hover (l : DLoc)
  | click (l : DLoc)
  | waitForVisible (l : DLoc)
  | waitTimeout (ms : Nat)
  | waitForLoadState
deriving DecidableEq

/-- `AccountSettingsPage.deleteSubscription` (lines 156-177): scroll the row
into view, hover then click its trash button, wait for the open dialog and
its confirm button to be visible, wait the fixed 500 ms settle delay, hover
then click the confirm button, and wait for the load signal. -/
def deleteSubscription (fullName : String) : List DAction :=
  [DAction.scrollIntoView (DLoc.row fullName),
   DAction.hover (DLoc.deleteBtn fullName),
   DAction.click (DLoc.deleteBtn fullName),
   DAction.waitForVisible DLoc.dialogOpen,
   DAction.waitForVisible DLoc.confirmDeleteBtn,
   DAction.waitTimeout 500,
   DAction.hover DLoc.confirmDeleteBtn,
   DAction.click DLoc.confirmDeleteBtn,
   DAction.waitForLoadState]

end AccountSettingsPage

namespace NewContactPage

/-- The role checkboxes of the contact form. -/
inductive JobRoleChoice where
  | technical
  | billing
  | abuse
  | emergency
deriving DecidableEq

/-- The named form fields of `NewContactPage`. -/
inductive FormField where
  | firstName
  | middleName
  | lastName
  | nickname
  | comments
  | company
  | jobTitle
  | jobRole
  | phoneNumber
  | email
  | secondaryEmail
deriving DecidableEq

/-- `ContactData` (NewContactPage.ts 11-24): required first/last name,
everything else optional. -/
structure ContactData where
  firstName : String
  middleName : Option String := none
  lastName : String
  nickname : Option String := none
  comments : Option String := none
  jobRoles : Option (List JobRoleChoice) := none
  company : Option String := none
  jobTitle : Option String := none
  jobRole : Option String := none
  phoneNumber : Option String := none
  email : Option String := none
  secondaryEmail : Option String := none
deriving DecidableEq

/-- Actions issued by the form workflow, in program order.
`clickCreateOrSave` is the click on `createButton.or(saveButton)`: whichever
of the two submit controls is present. -/
inductive FormAction where
  | fill (f : FormField) (value : String)
  | check (r : JobRoleChoice)
  | clickCreateOrSave
  | waitContactInfoHeading
  | waitForLoadState
deriving DecidableEq

/-- `if (data.x) await input.fill(data.x)` : fill an optional field only when
it is truthy; JS treats the empty string as falsy, so `some ""` is skipped. -/
def fillIfTruthy (f : FormField) (v : Option String) : List FormAction :=
  match v with
  | some s => if s = "" then [] else [FormAction.fill f s]
  | none => []

/-- `if (data.jobRoles) for (const role of data.jobRoles) check` : check
every selected role checkbox, in list order; an empty array is truthy in JS
and checks nothing, and an absent list checks nothing. -/
def rolesChecks : Option (List JobRoleChoice) → List FormAction
  | some roles => roles.map FormAction.check
  | none => []

/-- `NewContactPage.fillForm` (lines 148-174): always fill first and last
name; fill each optional field only when truthy; check each selected role
checkbox. -/
def fillForm (d : ContactData) : List FormAction :=
  [FormAction.fill FormField.firstName d.firstName,
   FormAction.fill FormField.lastName d.lastName] ++
  fillIfTruthy FormField.middleName d.middleName ++
  fillIfTruthy FormField.nickname d.nickname ++
  fillIfTruthy FormField.comments d.comments ++
  rolesChecks d.jobRoles ++
  fillIfTruthy FormField.company d.company ++
  fillIfTruthy FormField.jobTitle d.jobTitle ++
  fillIfTruthy FormField.jobRole d.jobRole ++
  fillIfTruthy FormField.phoneNumber d.phoneNumber ++
  fillIfTruthy FormField.email d.email ++
  fillIfTruthy FormField.secondaryEmail d.secondaryEmail

/-- `NewContactPage.submit` (lines 182-186). -/
def submit : List FormAction :=
  [FormAction.clickCreateOrSave, FormAction.waitForLoadState]

/-- `NewContactPage.waitForSuccess` (lines 194-197). -/
def waitForSuccess : List FormAction :=
  [FormAction.waitContactInfoHeading, FormAction.waitForLoadState]

/-- `NewContactPage.fillAndSubmit` (lines 212-216). -/
def fillAndSubmit (d : ContactData) : List FormAction :=
  fillForm d ++ submit ++ waitForSuccess

end NewContactPage

namespace MenuData

/-- `SubItem` (menu-data.ts 2-5). -/
structure SubItem where
  desktop : String
  mobile : Option String := none
deriving DecidableEq

/-- `MenuItem` (menu-data.ts 7-11). -/
structure MenuItem where
  name : String
  mobileName : Option String := none
  subItems : Option (List SubItem) := none
deriving DecidableEq

/-- `MENU_ITEMS` (menu-data.ts 13-86), the static menu topology table. -/
def MENU_ITEMS : List MenuItem :=
  [{ name := "Dedicated Servers",
     subItems := some [{ desktop := "Manage" }, { desktop := "Order" }] },
   { name := "Cloud Servers",
     subItems := some
       [{ desktop := "Create & Manage", mobile := some "Create & Manage" },
        { desktop := "Snapshots & Backups", mobile := some "Snapshots" },
        { desktop := "Images" },
        { desktop := "Volumes" }] },
   { name := "Cloud Storage" },
   { name := "Kubernetes" },
   { name := "Load Balancers" },
   { name := "Firewalls" },
   { name := "Networks",
     subItems := some
       [{ desktop := "Direct Connect" },
        { desktop := "L2 Segments" },
        { desktop := "DNS" },
        { desktop := "VPN access" }] },
   { name := "Private Racks" },
   { name := "Monitoring",
     subItems := some [{ desktop := "Healthchecks" }, { desktop := "Notifications" }] },
   { name := "SSL certificates", mobileName := some "SSL" },
   { name := "Account settings", mobileName := some "Account" },
   { name := "Identity and Access", mobileName := some "Identity",
     subItems := some [{ desktop := "SSH & GPG keys" }, { desktop := "API tokens" }] },
   { name := "Billing",
     subItems := some
       [{ desktop := "Orders" },
        { desktop := "Invoices" },
        { desktop := "Group invoices" },
        { desktop := "Account statement" },
        { desktop := "Payment details" },
        { desktop := "Top up balance" }] },
   { name := "Reports",
     subItems := some [{ desktop := "Cloud Servers" }, { desktop := "Cloud Storage" }] },
   { name := "Requests" }]

/-- `MenuTestCase` (menu-data.ts 88-93). -/
structure MenuTestCase where
  menuNames : List String
  subItemNames : Option (List String) := none
  testName : String
  isLastSubItem : Option Bool := none
deriving DecidableEq

/-- `names.push(x)` guarded by `if (x)`: appended only when truthy (JS treats
the empty string as falsy). -/
def optTruthy : Option String → List String
  | some s => if s = "" then [] else [s]
  | none => []

/-- The inner loop of `generateMenuTestCases` (menu-data.ts 106-120): one
test case per sub-item, candidate lists with the desktop label first, the
mobile label (when truthy) second, and `isLastSubItem` set on the final
index. -/
def subItemCases (mi : MenuItem) (menuNames : List String) (subs : List SubItem) :
    List MenuTestCase :=
  subs.enum.map fun x =>
    { menuNames := menuNames,
      subItemNames := some (x.2.desktop :: optTruthy x.2.mobile),
      testName := mi.name ++ " > " ++ x.2.desktop,
      isLastSubItem := some (decide (x.1 = subs.length - 1)) }

/-- The loop body of `generateMenuTestCases` for one entry: entries with a
non-empty `subItems` list yield one case per sub-item; all other entries
yield a single case with no `subItemNames`.  `menuNames` is `[name]` plus
the truthy `mobileName`. -/
def itemCases (menuItem : MenuItem) : List MenuTestCase :=
  let menuNames := menuItem.name :: optTruthy menuItem.mobileName
  match menuItem.subItems with
  | some subs =>
    if subs.length > 0 then subItemCases menuItem menuNames subs
    else [{ menuNames := menuNames, testName := menuItem.name }]
  | none => [{ menuNames := menuNames, testName := menuItem.name }]

/-- `generateMenuTestCases` (menu-data.ts 95-130), generalized over the
topology table it iterates. -/
def generateMenuTestCasesOf (items : List MenuItem) : List MenuTestCase :=
  items.flatMap itemCases

/-- `generateMenuTestCases()` applied to the repository's table. -/
def generateMenuTestCases : List MenuTestCase := generateMenuTestCasesOf MENU_ITEMS

/-- The number of leaves an entry contributes: one per sub-item when it has
any, else one for the entry itself. -/
def leafCount (mi : MenuItem) : Nat :=
  match mi.subItems with
  | some subs => if subs.length > 0 then subs.length else 1
  | none => 1

end MenuData

/-- One visibility probe of the resolver cascade: the step it belongs to,
the locator whose visibility is checked, and the locator returned when the
check passes (these differ only for the alt-text step, which returns the
enclosing link when one exists). -/
structure Probe where
  step : Step
  probed : Loc
  result : Loc
deriving DecidableEq

/-- Probe for the structural exact icon step. -/
def iconTextIsProbe (n : String) : Probe :=
  { step := Step.iconTextIs, probed := Loc.liSpanTextIs n, result := Loc.liSpanTextIs n }

/-- Probe for the structural substring icon step. -/
def iconTextContainsProbe (n : String) : Probe :=
  { step := Step.iconTextContains, probed := Loc.liSpanText n, result := Loc.liSpanText n }

/-- Probe for the substring text step. -/
def textContainsProbe (n : String) : Probe :=
  { step := Step.byTextContains, probed := Loc.textContains n, result := Loc.textContains n }

namespace Utils

/-- The three exact-step probes `findMenuElement` makes for one name, in
order: exact text, exact link role, exact alt text. -/
def exactProbes (p : Page) (n : String) : List Probe :=
  [{ step := Step.byTextExact, probed := Loc.textExact n, result := Loc.textExact n },
   { step := Step.byLinkExact, probed := Loc.linkExact n, result := Loc.linkExact n },
   { step := Step.byAltExact, probed := Loc.altExact n,
     result :=
       if p.cnt (Loc.ancestorLink (Loc.altExact n)) > 0 then Loc.ancestorLink (Loc.altExact n)
       else Loc.altExact n }]

/-- The two partial-step probes `findMenuElement` makes for one name, in
order: substring text, substring link name. -/
def containsProbes (n : String) : List Probe :=
  [textContainsProbe n,
   { step := Step.byLinkContains, probed := Loc.linkContains n, result := Loc.linkContains n }]

/-- The full probe sequence of `findMenuElement`, written so that the whole
candidate list is exhausted at one precision phase before the next, more
relaxed phase begins: structural-exact over all names then
structural-substring over all names (icon regime, top level), or the exact
phase over all names then the substring phase over all names (all other
regimes). -/
def cascadeProbes (p : Page) (vt : Option ViewportType) (isSubItem : Bool)
    (names : List String) : List Probe :=
  if vt = some ViewportType.desktopSmall ∧ isSubItem = false then
    names.map iconTextIsProbe ++ names.map iconTextContainsProbe
  else
    names.flatMap (exactProbes p) ++ names.flatMap containsProbes

end Utils

namespace SideMenuComponent

/-- The two exact-step probes `findMenuItem` makes for one name, in order:
exact text then exact link role. -/
def exactProbes (n : String) : List Probe :=
  [{ step := Step.byTextExact, probed := Loc.textExact n, result := Loc.textExact n },
   { step := Step.byLinkExact, probed := Loc.linkExact n, result := Loc.linkExact n }]

/-- The full probe sequence of `findMenuItem`: one precision phase exhausts
the whole candidate list before the next begins. -/
def cascadeProbes (vt : ViewportType) (names : List String) : List Probe :=
  if vt = ViewportType.desktopSmall then
    names.map iconTextIsProbe ++ names.map iconTextContainsProbe
  else
    names.flatMap exactProbes ++ names.map textContainsProbe

end SideMenuComponent

/-- The result `Utils.findMenuElement` returns when every probe fails: the
unguarded fallback handle, i.e. the `ResolutionFailure` outcome. -/
def utilsFallbackResult (vt : Option ViewportType) (isSubItem : Bool)
    (names : List String) : Step × Loc :=
  if vt = some ViewportType.desktopSmall ∧ isSubItem = false then
    (Step.iconFallback, Loc.liSpanText (jsStr names.head?))
  else (Step.finalFallback, Loc.textContains (names.head?.getD ""))

/-- The result `SideMenuComponent.findMenuItem` returns when every probe
fails. -/
def smFallbackResult (vt : ViewportType) (names : List String) : Step × Loc :=
  if vt = ViewportType.desktopSmall then
    (Step.iconFallback, Loc.liSpanText (jsStr names.head?))
  else (Step.finalFallback, Loc.textContains (names.head?.getD ""))

/-- The result of a probe search: the step and locator of the first passing
probe, or the fallback when none passed. -/
def probeOutcome (fb : Step × Loc) : Option Probe → Step × Loc
  | some a => (a.step, a.result)
  | none => fb

/-- A surface on which every visibility query throws (so every caught check
is false), no element has an enclosing link, and no viewport is reported. -/
def pErr : Page :=
  { vis := fun _ => VisResult.err, cnt := fun _ => 0, viewportWidth := none }

/-- A surface in the icon-only breakpoint range (width 800) on which every
visibility query throws. -/
def pIconOnly : Page :=
  { vis := fun _ => VisResult.err, cnt := fun _ => 0, viewportWidth := some 800 }

/-- A degenerate surface reporting viewport width 0. -/
def pWidthZero : Page :=
  { vis := fun _ => VisResult.err, cnt := fun _ => 0, viewportWidth := some 0 }

/-- Contact data whose optional middle name is supplied as the empty
string. -/
def cDataEmptyMiddle : NewContactPage.ContactData :=
  { firstName := "John", lastName := "Doe", middleName := some "" }

/-!  Theorems.  -/

/-- C7 counterexample: viewport width 0 is strictly below the 768 Compact
threshold, yet the utils classifier maps it to Expanded (`desktopLarge`),
because `width || 1920` treats the falsy 0 as unavailable; the component
classifier (`?? 1920`) maps the same width to Compact, so classification is
not the single threshold function of width the claim states. -/
theorem viewport_width_zero_counterexample :
    Utils.getViewportType pWidthZero = ViewportType.desktopLarge ∧
    (0 : Nat) < 768 ∧
    SideMenuComponent.getViewportType pWidthZero = ViewportType.mobile := by
  refine ⟨by decide, by decide, by decide⟩

/-- C7 (amended): for every positive width both classifiers implement the
thresholds width < 768 → Compact, 768 ≤ width < 1200 → IconOnly,
width ≥ 1200 → Expanded, and a missing width defaults to 1920 (Expanded);
at width 0 the utils classifier (JS `||`) falls back to 1920 and yields
Expanded while the component classifier (JS `??`) keeps 0 and yields
Compact. -/
theorem viewport_classification_thresholds (p : Page) (w : Nat) :
    (p.viewportWidth = some w → 0 < w →
      Utils.getViewportType p =
        (if w < 768 then ViewportType.mobile
         else if w < 1200 then ViewportType.desktopSmall
         else ViewportType.desktopLarge) ∧
      SideMenuComponent.getViewportType p =
        (if w < 768 then ViewportType.mobile
         else if w < 1200 then ViewportType.desktopSmall
         else ViewportType.desktopLarge)) ∧
    (p.viewportWidth = none →
      Utils.getViewportType p = ViewportType.desktopLarge ∧
      SideMenuComponent.getViewportType p = ViewportType.desktopLarge) ∧
    (p.viewportWidth = some 0 →
      Utils.getViewportType p = ViewportType.desktopLarge ∧
      SideMenuComponent.getViewportType p = ViewportType.mobile) := by
  refine ⟨?_, ?_, ?_⟩
  · intro hw hpos
    have hz : ¬ w = 0 := by omega
    constructor
    · simp [Utils.getViewportType, hw, hz]
    · simp [SideMenuComponent.getViewportType, hw]
  · intro hw
    exact ⟨by simp [Utils.getViewportType, hw], by simp [SideMenuComponent.getViewportType, hw]⟩
  · intro hw
    exact ⟨by simp [Utils.getViewportType, hw], by simp [SideMenuComponent.getViewportType, hw]⟩

/-- C7 witness: the amended theorem applied at width 800 (IconOnly), at a
missing width, and at width 0. -/
theorem viewport_classification_thresholds_witness :
    (Utils.getViewportType pIconOnly = ViewportType.desktopSmall ∧
      SideMenuComponent.getViewportType pIconOnly = ViewportType.desktopSmall) ∧
    (Utils.getViewportType pErr = ViewportType.desktopLarge ∧
      SideMenuComponent.getViewportType pErr = ViewportType.desktopLarge) ∧
    (Utils.getViewportType pWidthZero = ViewportType.desktopLarge ∧
      SideMenuComponent.getViewportType pWidthZero = ViewportType.mobile) := by
  refine ⟨?_, ?_, ?_⟩
  · have h := (viewport_classification_thresholds pIconOnly 800).1 rfl (by decide)
    simpa using h
  · exact (viewport_classification_thresholds pErr 0).2.1 rfl
  · exact (viewport_classification_thresholds pWidthZero 0).2.2 rfl

/-- C10 counterexample: on the empty candidate list in the icon-only
top-level branch, the resolver's final fallback interpolates the
out-of-bounds read `names[0]` as the string "undefined" — a handle built
from "undefined", not from the empty string the claim states. -/
theorem empty_names_icon_fallback_counterexample :
    Utils.findMenuElement pErr [] (some ViewportType.desktopSmall) false =
      (Step.iconFallback, Loc.liSpanText "undefined") ∧
    SideMenuComponent.findMenuItem pErr [] ViewportType.desktopSmall =
      (Step.iconFallback, Loc.liSpanText "undefined") ∧
    ("undefined" : String) ≠ "" := by
  refine ⟨by decide, by decide, by decide⟩

/-- C10 (amended): both resolvers are total on the empty candidate list for
any oracle — every cascade loop is vacuously skipped and the final fallback
is returned; on the non-icon paths the fallback handle is built from the
empty string (`names[0] ?? ''`), while on the icon-only top-level paths the
unguarded `names[0]` interpolates as the string "undefined".  No branch
throws or indexes out of bounds. -/
theorem resolver_empty_names_total (p : Page) (vt : Option ViewportType)
    (isSubItem : Bool) (vtc : ViewportType) :
    Utils.findMenuElement p [] vt isSubItem =
      (if vt = some ViewportType.desktopSmall ∧ isSubItem = false then
         (Step.iconFallback, Loc.liSpanText "undefined")
       else (Step.finalFallback, Loc.textContains "")) ∧
    SideMenuComponent.findMenuItem p [] vtc =
      (if vtc = ViewportType.desktopSmall then
         (Step.iconFallback, Loc.liSpanText "undefined")
       else (Step.finalFallback, Loc.textContains "")) := by
  constructor
  · by_cases hc : vt = some ViewportType.desktopSmall ∧ isSubItem = false <;>
      simp [Utils.findMenuElement, firstVisible, Utils.findExactPhase,
            Utils.findContainsPhase, jsStr, hc]
  · by_cases hc : vtc = ViewportType.desktopSmall <;>
      simp [SideMenuComponent.findMenuItem, firstVisible,
            SideMenuComponent.findExactPhase, jsStr, hc]

/-- C4: in every delete of a record, the trace contains the
dialog-becomes-visible wait, then the fixed 500 ms settle delay, then the
confirm click, in strictly increasing positions, and no confirm click
occurs before that delay: the wait is unconditional and ordered strictly
between dialog-visible and confirm-click. -/
theorem delete_settle_delay_before_confirm (fullName : String) :
    ∃ i j k : Nat, i < j ∧ j < k ∧
      (AccountSettingsPage.deleteSubscription fullName).get? i =
        some (AccountSettingsPage.DAction.waitForVisible AccountSettingsPage.DLoc.dialogOpen) ∧
      (AccountSettingsPage.deleteSubscription fullName).get? j =
        some (AccountSettingsPage.DAction.waitTimeout 500) ∧
      (AccountSettingsPage.deleteSubscription fullName).get? k =
        some (AccountSettingsPage.DAction.click AccountSettingsPage.DLoc.confirmDeleteBtn) ∧
      ∀ m, (AccountSettingsPage.deleteSubscription fullName).get? m =
          some (AccountSettingsPage.DAction.click AccountSettingsPage.DLoc.confirmDeleteBtn) →
        k ≤ m := by
  refine ⟨3, 5, 7, by omega, by omega, rfl, rfl, rfl, ?_⟩
  intro m hm
  match m with
  | 0 | 1 | 2 | 3 | 4 | 5 | 6 | 8 => simp [AccountSettingsPage.deleteSubscription] at hm
  | 7 => omega
  | n + 9 => simp [AccountSettingsPage.deleteSubscription] at hm

/-- C5: `initSharedSession` is idempotent — on an already-initialized
session it returns at once with the session unchanged and no authentication
effects; and after any successful invocation the session is initialized, so
every subsequent invocation (any environment, any fresh handle) is a no-op
with no effects. -/
theorem initSharedSession_idempotent (session : Utils.SharedSession)
    (env env2 : Utils.Env) (fresh fresh2 : Nat) :
    (session.isInitialized = true →
      Utils.initSharedSession session env fresh = Except.ok (session, [])) ∧
    (∀ s2 effects,
      Utils.initSharedSession session env fresh = Except.ok (s2, effects) →
      Utils.initSharedSession s2 env2 fresh2 = Except.ok (s2, [])) := by
  constructor
  · intro h
    simp [Utils.initSharedSession, h]
  · intro s2 effects h
    have h2 : s2.isInitialized = true := by
      by_cases hi : session.isInitialized
      · simp [Utils.initSharedSession, hi] at h
        rw [← h.1, hi]
      · simp [Utils.initSharedSession, hi] at h
        cases hc : Utils.getCredentials env with
        | error e => rw [hc] at h; exact absurd h (by simp)
        | ok cred =>
          rw [hc] at h
          simp at h
          rw [← h.1]
    simp [Utils.initSharedSession, h2]

/-- C3: in the IconOnly regime with a requested sub-entry, `navigateTo`
hovers the resolved entry first; when the sub-entry is not visible after the
hover it clicks the entry as a fallback before proceeding; it then hovers
(caught) and clicks the sub-entry; and after the sub-entry click it always
hovers the fixed Dashboard anchor (closing the flyout) before the final
load wait. -/
theorem navigateTo_iconOnly_flyout (p : Page) (menuNames : List String)
    (s : String) (ss : List String)
    (h : SideMenuComponent.getViewportType p = ViewportType.desktopSmall) :
    SideMenuComponent.navigateTo p menuNames (some (s :: ss)) =
      (let entry := (SideMenuComponent.findMenuItem p menuNames ViewportType.desktopSmall).2
       let sub := Loc.ulGetByTextExact entry s
       MAction.hover entry ::
         ((if !(p.isVis sub) then [MAction.click entry] else []) ++
          [MAction.hoverCaught sub, MAction.click sub, MAction.hover Loc.dashboardText,
           MAction.waitForLoadState])) := by
  simp [SideMenuComponent.navigateTo, h, SideMenuComponent.navigateDesktopSmall]

/-- C3 witness: the flyout scenario of the spec, `Monitoring` →
`Healthchecks`, on an 800-pixel-wide surface where no probe reports
visible: hover the entry, click it as the disclosure fallback, hover and
click the sub-entry, hover the Dashboard anchor, wait for load. -/
theorem navigateTo_iconOnly_flyout_witness :
    SideMenuComponent.navigateTo pIconOnly ["Monitoring"] (some ["Healthchecks"]) =
      [MAction.hover (Loc.liSpanText "Monitoring"),
       MAction.click (Loc.liSpanText "Monitoring"),
       MAction.hoverCaught (Loc.ulGetByTextExact (Loc.liSpanText "Monitoring") "Healthchecks"),
       MAction.click (Loc.ulGetByTextExact (Loc.liSpanText "Monitoring") "Healthchecks"),
       MAction.hover Loc.dashboardText,
       MAction.waitForLoadState] := by
  rw [navigateTo_iconOnly_flyout pIconOnly ["Monitoring"] "Healthchecks" [] (by decide)]
  decide

/-- C9: in all three regime paths the requested sub-entry is located using
only the first element of `subItemNames` — replacing the tail of the list
never changes the issued trace — and the sub-entry click targets an
exact-text locator scoped to the parent entry's `ul`; the mobile path
scopes that parent list item by only the first entry name. -/
theorem subentry_uses_first_name_only (p : Page) (menuNames : List String)
    (s : String) (ss ts : List String) :
    (SideMenuComponent.navigateMobile p menuNames (some (s :: ss)) =
      SideMenuComponent.navigateMobile p menuNames (some (s :: ts))) ∧
    (SideMenuComponent.navigateDesktopSmall p menuNames (some (s :: ss)) =
      SideMenuComponent.navigateDesktopSmall p menuNames (some (s :: ts))) ∧
    (SideMenuComponent.navigateDesktopLarge p menuNames (some (s :: ss)) =
      SideMenuComponent.navigateDesktopLarge p menuNames (some (s :: ts))) ∧
    MAction.click (Loc.ulGetByTextExact (Loc.liChildSpanHasText (menuNames.head?.getD "")) s)
      ∈ SideMenuComponent.navigateMobile p menuNames (some (s :: ss)) ∧
    MAction.click (Loc.ulGetByTextExact
        (SideMenuComponent.findMenuItem p menuNames ViewportType.desktopSmall).2 s)
      ∈ SideMenuComponent.navigateDesktopSmall p menuNames (some (s :: ss)) ∧
    MAction.click (Loc.ulGetByTextExact
        (SideMenuComponent.findMenuItem p menuNames ViewportType.desktopLarge).2 s)
      ∈ SideMenuComponent.navigateDesktopLarge p menuNames (some (s :: ss)) := by
  refine ⟨rfl, rfl, rfl, ?_, ?_, ?_⟩
  · simp [SideMenuComponent.navigateMobile]
  · simp [SideMenuComponent.navigateDesktopSmall]
  · simp [SideMenuComponent.navigateDesktopLarge]

/-- A visibility oracle that never answers a definite `true` makes every
caught check false. -/
theorem isVis_false_of_never_ok {p : Page} (h : ∀ l, p.vis l ≠ VisResult.ok true) :
    ∀ l, p.isVis l = false := by
  intro l
  cases hv : p.vis l with
  | ok b =>
    cases b with
    | true => exact absurd hv (h l)
    | false => simp [Page.isVis, catchFalse, hv]
  | err => simp [Page.isVis, catchFalse, hv]

/-- When every caught check is false, the per-name loop finds nothing. -/
theorem firstVisible_none_of_invisible {p : Page} (h : ∀ l, p.isVis l = false)
    (mk : String → Loc) : ∀ names, firstVisible p mk names = none := by
  intro names
  induction names with
  | nil => rfl
  | cons n ns ih => simp [firstVisible, h, ih]

/-- When every caught check is false, the utils exact phase finds nothing. -/
theorem utils_findExactPhase_none {p : Page} (h : ∀ l, p.isVis l = false) :
    ∀ names, Utils.findExactPhase p names = none := by
  intro names
  induction names with
  | nil => rfl
  | cons n ns ih => simp [Utils.findExactPhase, h, ih]

/-- When every caught check is false, the utils substring phase finds
nothing. -/
theorem utils_findContainsPhase_none {p : Page} (h : ∀ l, p.isVis l = false) :
    ∀ names, Utils.findContainsPhase p names = none := by
  intro names
  induction names with
  | nil => rfl
  | cons n ns ih => simp [Utils.findContainsPhase, h, ih]

/-- When every caught check is false, the component exact phase finds
nothing. -/
theorem sm_findExactPhase_none {p : Page} (h : ∀ l, p.isVis l = false) :
    ∀ names, SideMenuComponent.findExactPhase p names = none := by
  intro names
  induction names with
  | nil => rfl
  | cons n ns ih => simp [SideMenuComponent.findExactPhase, h, ih]

/-- C1: on a surface where no candidate matches anywhere (every raw
visibility answer is an error or `false` — errors are caught and treated as
false, so no cascade step raises), both resolvers run every cascade step to
completion and return the final-fallback result — the unguarded handle the
spec calls `ResolutionFailure` — rather than hanging, throwing, or
returning a visibility-guaranteed result. -/
theorem resolver_no_match_final_fallback (p : Page)
    (h : ∀ l, p.vis l ≠ VisResult.ok true) (names : List String)
    (vt : Option ViewportType) (isSubItem : Bool) (vtc : ViewportType) :
    Utils.findMenuElement p names vt isSubItem = utilsFallbackResult vt isSubItem names ∧
    SideMenuComponent.findMenuItem p names vtc = smFallbackResult vtc names := by
  have hv := isVis_false_of_never_ok h
  constructor
  · by_cases hc : vt = some ViewportType.desktopSmall ∧ isSubItem = false <;>
      simp [Utils.findMenuElement, utilsFallbackResult, hc,
            firstVisible_none_of_invisible hv, utils_findExactPhase_none hv,
            utils_findContainsPhase_none hv]
  · by_cases hc : vtc = ViewportType.desktopSmall <;>
      simp [SideMenuComponent.findMenuItem, smFallbackResult, hc,
            firstVisible_none_of_invisible hv, sm_findExactPhase_none hv]

/-- C1 witness: on the all-errors surface, resolving a name that matches
nothing ends at the final fallback of both resolvers. -/
theorem resolver_no_match_final_fallback_witness :
    Utils.findMenuElement pErr ["No Such Entry"] none false =
      (Step.finalFallback, Loc.textContains "No Such Entry") ∧
    SideMenuComponent.findMenuItem pErr ["No Such Entry"] ViewportType.desktopLarge =
      (Step.finalFallback, Loc.textContains "No Such Entry") := by
  have h := resolver_no_match_final_fallback pErr
    (by intro l hl; simp [pErr] at hl) ["No Such Entry"] none false ViewportType.desktopLarge
  exact ⟨h.1.trans (by decide), h.2.trans (by decide)⟩

/-- The probes of one structural-exact icon pass are exactly the per-name
loop: the first probe whose locator is visible is the first visible name. -/
theorem find?_iconTextIsProbes (p : Page) : ∀ names : List String,
    (names.map iconTextIsProbe).find? (fun a => p.isVis a.probed) =
      (firstVisible p Loc.liSpanTextIs names).map
        (fun l => { step := Step.iconTextIs, probed := l, result := l }) := by
  intro names
  induction names with
  | nil => rfl
  | cons n ns ih =>
    by_cases h : p.isVis (Loc.liSpanTextIs n) <;>
      simp [firstVisible, iconTextIsProbe, List.find?_cons, h, ih]

/-- The probes of one structural-substring icon pass are exactly the
per-name loop. -/
theorem find?_iconTextContainsProbes (p : Page) : ∀ names : List String,
    (names.map iconTextContainsProbe).find? (fun a => p.isVis a.probed) =
      (firstVisible p Loc.liSpanText names).map
        (fun l => { step := Step.iconTextContains, probed := l, result := l }) := by
  intro names
  induction names with
  | nil => rfl
  | cons n ns ih =>
    by_cases h : p.isVis (Loc.liSpanText n) <;>
      simp [firstVisible, iconTextContainsProbe, List.find?_cons, h, ih]

/-- The probes of one substring-text pass are exactly the per-name loop. -/
theorem find?_textContainsProbes (p : Page) : ∀ names : List String,
    (names.map textContainsProbe).find? (fun a => p.isVis a.probed) =
      (firstVisible p Loc.textContains names).map
        (fun l => { step := Step.byTextContains, probed := l, result := l }) := by
  intro names
  induction names with
  | nil => rfl
  | cons n ns ih =>
    by_cases h : p.isVis (Loc.textContains n) <;>
      simp [firstVisible, textContainsProbe, List.find?_cons, h, ih]

/-- The utils exact phase equals the first passing probe of its per-name
probe triples, taken in list order. -/
theorem utils_findExactPhase_probes (p : Page) : ∀ names : List String,
    Utils.findExactPhase p names =
      ((names.flatMap (Utils.exactProbes p)).find? (fun a => p.isVis a.probed)).map
        (fun a => (a.step, a.result)) := by
  intro names
  induction names with
  | nil => rfl
  | cons n ns ih =>
    by_cases h1 : p.isVis (Loc.textExact n) <;>
    by_cases h2 : p.isVis (Loc.linkExact n) <;>
    by_cases h3 : p.isVis (Loc.altExact n) <;>
      simp [Utils.findExactPhase, Utils.exactProbes, List.flatMap_cons, List.find?_cons,
            h1, h2, h3, ih]

/-- The utils substring phase equals the first passing probe of its
per-name probe pairs, taken in list order. -/
theorem utils_findContainsPhase_probes (p : Page) : ∀ names : List String,
    Utils.findContainsPhase p names =
      ((names.flatMap Utils.containsProbes).find? (fun a => p.isVis a.probed)).map
        (fun a => (a.step, a.result)) := by
  intro names
  induction names with
  | nil => rfl
  | cons n ns ih =>
    by_cases h1 : p.isVis (Loc.textContains n) <;>
    by_cases h2 : p.isVis (Loc.linkContains n) <;>
      simp [Utils.findContainsPhase, Utils.containsProbes, textContainsProbe,
            List.flatMap_cons, List.find?_cons, h1, h2, ih]

/-- The component exact phase equals the first passing probe of its
per-name probe pairs, taken in list order. -/
theorem sm_findExactPhase_probes (p : Page) : ∀ names : List String,
    SideMenuComponent.findExactPhase p names =
      ((names.flatMap SideMenuComponent.exactProbes).find? (fun a => p.isVis a.probed)).map
        (fun a => (a.step, a.result)) := by
  intro names
  induction names with
  | nil => rfl
  | cons n ns ih =>
    by_cases h1 : p.isVis (Loc.textExact n) <;>
    by_cases h2 : p.isVis (Loc.linkExact n) <;>
      simp [SideMenuComponent.findExactPhase, SideMenuComponent.exactProbes,
            List.flatMap_cons, List.find?_cons, h1, h2, ih]

/-- C2: both resolvers are equivalent to a single left-to-right search over
their probe sequence, and that sequence lists one precision phase over the
WHOLE candidate list before the next, more relaxed phase begins
(`cascadeProbes` is literally phase-one-over-all-names ++
phase-two-over-all-names); within a phase, each name is given its
same-precision sub-probes (exact text, exact link role, exact alt text) in
order before the next name.  So the full candidate list is exhausted per
cascade step before precision is relaxed, in every regime. -/
theorem resolver_exhausts_list_per_step (p : Page) (vt : Option ViewportType)
    (isSubItem : Bool) (vtc : ViewportType) (names : List String) :
    Utils.findMenuElement p names vt isSubItem =
      probeOutcome (utilsFallbackResult vt isSubItem names)
        ((Utils.cascadeProbes p vt isSubItem names).find? (fun a => p.isVis a.probed)) ∧
    SideMenuComponent.findMenuItem p names vtc =
      probeOutcome (smFallbackResult vtc names)
        ((SideMenuComponent.cascadeProbes vtc names).find? (fun a => p.isVis a.probed)) := by
  constructor
  · by_cases hc : vt = some ViewportType.desktopSmall ∧ isSubItem = false
    · obtain ⟨hv1, hv2⟩ := hc
      subst hv1; subst hv2
      simp only [Utils.cascadeProbes, utilsFallbackResult, eq_self_iff_true, and_self, if_true]
      rw [List.find?_append, find?_iconTextIsProbes, find?_iconTextContainsProbes]
      rcases hA : firstVisible p Loc.liSpanTextIs names with _ | l1 <;>
        rcases hB : firstVisible p Loc.liSpanText names with _ | l2 <;>
          simp [Utils.findMenuElement, hA, hB, probeOutcome, Option.or]
    · simp only [Utils.findMenuElement, Utils.cascadeProbes, utilsFallbackResult, if_neg hc]
      rw [List.find?_append]
      rcases hA : (names.flatMap (Utils.exactProbes p)).find?
          (fun a => p.isVis a.probed) with _ | a1
      · rw [hA]
        have hA2 : Utils.findExactPhase p names = none := by
          rw [utils_findExactPhase_probes, hA]; rfl
        rcases hB : (names.flatMap Utils.containsProbes).find?
            (fun a => p.isVis a.probed) with _ | a2
        · rw [hB]
          have hB2 : Utils.findContainsPhase p names = none := by
            rw [utils_findContainsPhase_probes, hB]; rfl
          simp [hA2, hB2, probeOutcome, Option.or]
        · rw [hB]
          have hB2 : Utils.findContainsPhase p names = some (a2.step, a2.result) := by
            rw [utils_findContainsPhase_probes, hB]; rfl
          simp [hA2, hB2, probeOutcome, Option.or]
      · rw [hA]
        have hA2 : Utils.findExactPhase p names = some (a1.step, a1.result) := by
          rw [utils_findExactPhase_probes, hA]; rfl
        simp [hA2, probeOutcome, Option.or]
  · by_cases hc : vtc = ViewportType.desktopSmall
    · subst hc
      simp only [SideMenuComponent.cascadeProbes, smFallbackResult, eq_self_iff_true, if_true]
      rw [List.find?_append, find?_iconTextIsProbes, find?_iconTextContainsProbes]
      rcases hA : firstVisible p Loc.liSpanTextIs names with _ | l1 <;>
        rcases hB : firstVisible p Loc.liSpanText names with _ | l2 <;>
          simp [SideMenuComponent.findMenuItem, hA, hB, probeOutcome, Option.or]
    · simp only [SideMenuComponent.findMenuItem, SideMenuComponent.cascadeProbes,
                 smFallbackResult, if_neg hc]
      rw [List.find?_append, find?_textContainsProbes]
      rcases hA : (names.flatMap SideMenuComponent.exactProbes).find?
          (fun a => p.isVis a.probed) with _ | a1
      · rw [hA]
        have hA2 : SideMenuComponent.findExactPhase p names = none := by
          rw [sm_findExactPhase_probes, hA]; rfl
        rcases hB : firstVisible p Loc.textContains names with _ | l2 <;>
          simp [hA2, hB, probeOutcome, Option.or]
      · rw [hA]
        have hA2 : SideMenuComponent.findExactPhase p names = some (a1.step, a1.result) := by
          rw [sm_findExactPhase_probes, hA]; rfl
        simp [hA2, probeOutcome, Option.or]

/-- A fill action on field `f` occurs in a truthy-guarded optional fill of
field `g` exactly when the fields agree, the value was supplied, and it is
non-empty (JS truthiness). -/
theorem mem_fillIfTruthy {f g : NewContactPage.FormField} {v : String} {o : Option String} :
    NewContactPage.FormAction.fill f v ∈ NewContactPage.fillIfTruthy g o ↔
      f = g ∧ o = some v ∧ v ≠ "" := by
  cases o with
  | none => simp [NewContactPage.fillIfTruthy]
  | some s =>
    by_cases hs : s = ""
    · subst hs
      constructor
      · intro h; simp [NewContactPage.fillIfTruthy] at h
      · rintro ⟨h1, h2, h3⟩; exact (h3 (Option.some.inj h2).symm).elim
    · constructor
      · intro h
        simp [NewContactPage.fillIfTruthy, hs] at h
        obtain ⟨rfl, rfl⟩ := h
        exact ⟨rfl, rfl, hs⟩
      · rintro ⟨rfl, h2, h3⟩
        have hv : s = v := Option.some.inj h2
        subst hv
        simp [NewContactPage.fillIfTruthy, hs]

/-- A checkbox action never comes from an optional text fill. -/
theorem check_not_mem_fillIfTruthy {r : NewContactPage.JobRoleChoice}
    {g : NewContactPage.FormField} {o : Option String} :
    NewContactPage.FormAction.check r ∉ NewContactPage.fillIfTruthy g o := by
  cases o with
  | none => simp [NewContactPage.fillIfTruthy]
  | some s => by_cases hs : s = "" <;> simp [NewContactPage.fillIfTruthy, hs]

/-- A fill action never comes from the role-checkbox loop. -/
theorem fill_not_mem_rolesChecks {f : NewContactPage.FormField} {v : String}
    {o : Option (List NewContactPage.JobRoleChoice)} :
    NewContactPage.FormAction.fill f v ∉ NewContactPage.rolesChecks o := by
  cases o <;> simp [NewContactPage.rolesChecks]

/-- A checkbox action comes from the role loop exactly for a selected
role. -/
theorem check_mem_rolesChecks {r : NewContactPage.JobRoleChoice}
    {o : Option (List NewContactPage.JobRoleChoice)} :
    NewContactPage.FormAction.check r ∈ NewContactPage.rolesChecks o ↔
      ∃ roles, o = some roles ∧ r ∈ roles := by
  cases o <;> simp [NewContactPage.rolesChecks]

/-- C6 counterexample: a contact datum whose optional `middleName` IS
supplied — as the empty string — produces a fill trace containing only the
two required fills: the supplied optional field is never filled, because
the code guards each optional fill with JS truthiness, not presence. -/
theorem contact_fill_supplied_empty_counterexample :
    NewContactPage.fillForm cDataEmptyMiddle =
      [NewContactPage.FormAction.fill NewContactPage.FormField.firstName "John",
       NewContactPage.FormAction.fill NewContactPage.FormField.lastName "Doe"] ∧
    cDataEmptyMiddle.middleName = some "" := by
  exact ⟨by decide, by decide⟩

/-- C6 (amended): the fill trace always fills `firstName` and `lastName`
with the given values; it fills each optional field exactly when that field
is supplied AND non-empty (JS truthiness — a supplied empty string is
treated as absent); untouched otherwise; it checks exactly the checkboxes
of the selected roles; and the full workflow is the fill trace followed by
the click on whichever of the Create/Save controls is present
(`createButton.or(saveButton)`), a load wait, the success-heading wait
confirming the detail view, and a final load wait. -/
theorem contact_fill_submit_success (d : NewContactPage.ContactData) (v : String)
    (r : NewContactPage.JobRoleChoice) :
    (NewContactPage.FormAction.fill NewContactPage.FormField.firstName v ∈
        NewContactPage.fillForm d ↔ v = d.firstName) ∧
    (NewContactPage.FormAction.fill NewContactPage.FormField.lastName v ∈
        NewContactPage.fillForm d ↔ v = d.lastName) ∧
    (NewContactPage.FormAction.fill NewContactPage.FormField.middleName v ∈
        NewContactPage.fillForm d ↔ d.middleName = some v ∧ v ≠ "") ∧
    (NewContactPage.FormAction.fill NewContactPage.FormField.nickname v ∈
        NewContactPage.fillForm d ↔ d.nickname = some v ∧ v ≠ "") ∧
    (NewContactPage.FormAction.fill NewContactPage.FormField.comments v ∈
        NewContactPage.fillForm d ↔ d.comments = some v ∧ v ≠ "") ∧
    (NewContactPage.FormAction.fill NewContactPage.FormField.company v ∈
        NewContactPage.fillForm d ↔ d.company = some v ∧ v ≠ "") ∧
    (NewContactPage.FormAction.fill NewContactPage.FormField.jobTitle v ∈
        NewContactPage.fillForm d ↔ d.jobTitle = some v ∧ v ≠ "") ∧
    (NewContactPage.FormAction.fill NewContactPage.FormField.jobRole v ∈
        NewContactPage.fillForm d ↔ d.jobRole = some v ∧ v ≠ "") ∧
    (NewContactPage.FormAction.fill NewContactPage.FormField.phoneNumber v ∈
        NewContactPage.fillForm d ↔ d.phoneNumber = some v ∧ v ≠ "") ∧
    (NewContactPage.FormAction.fill NewContactPage.FormField.email v ∈
        NewContactPage.fillForm d ↔ d.email = some v ∧ v ≠ "") ∧
    (NewContactPage.FormAction.fill NewContactPage.FormField.secondaryEmail v ∈
        NewContactPage.fillForm d ↔ d.secondaryEmail = some v ∧ v ≠ "") ∧
    (NewContactPage.FormAction.check r ∈ NewContactPage.fillForm d ↔
      ∃ roles, d.jobRoles = some roles ∧ r ∈ roles) ∧
    NewContactPage.fillAndSubmit d =
      NewContactPage.fillForm d ++
        [NewContactPage.FormAction.clickCreateOrSave,
         NewContactPage.FormAction.waitForLoadState,
         NewContactPage.FormAction.waitContactInfoHeading,
         NewContactPage.FormAction.waitForLoadState] := by
  refine ⟨?_, ?_, ?_, ?_, ?_, ?_, ?_, ?_, ?_, ?_, ?_, ?_, ?shape⟩
  case shape =>
    simp [NewContactPage.fillAndSubmit, NewContactPage.fillForm, NewContactPage.submit,
          NewContactPage.waitForSuccess, List.append_assoc]
  all_goals
    simp [NewContactPage.fillForm, List.mem_append, mem_fillIfTruthy,
          check_not_mem_fillIfTruthy, fill_not_mem_rolesChecks, check_mem_rolesChecks]

/-- The second component of an indexed enumeration entry is an element of
the enumerated list. -/
theorem enumFrom_snd_mem {α : Type} : ∀ (l : List α) (n : Nat) (x : Nat × α),
    x ∈ List.enumFrom n l → x.2 ∈ l := by
  intro l
  induction l with
  | nil => intro n x hx; simp at hx
  | cons a t ih =>
    intro n x hx
    rw [List.enumFrom_cons] at hx
    rcases List.mem_cons.mp hx with h | h
    · subst h; exact List.mem_cons_self _ _
    · exact List.mem_cons_of_mem _ (ih _ _ h)

/-- One step of the generator: the cases of the head entry, then the cases
of the remaining entries. -/
theorem generateMenuTestCasesOf_cons (mi : MenuData.MenuItem)
    (rest : List MenuData.MenuItem) :
    MenuData.generateMenuTestCasesOf (mi :: rest) =
      MenuData.itemCases mi ++ MenuData.generateMenuTestCasesOf rest := by
  simp [MenuData.generateMenuTestCasesOf, List.flatMap_cons]

/-- Each entry contributes exactly its number of leaves. -/
theorem length_itemCases (mi : MenuData.MenuItem) :
    (MenuData.itemCases mi).length = MenuData.leafCount mi := by
  cases hs : mi.subItems with
  | none => simp [MenuData.itemCases, MenuData.leafCount, hs]
  | some subs =>
    by_cases hl : subs.length > 0 <;>
      simp [MenuData.itemCases, MenuData.leafCount, MenuData.subItemCases, hs, hl,
            List.enum_length]

/-- Every case an entry contributes lists the canonical name first (plus
the truthy mobile alternate), and its sub-entry candidate list, when
present, is the desktop label of one of the entry's sub-items first (plus
the truthy mobile alternate). -/
theorem mem_itemCases {mi : MenuData.MenuItem} {tc : MenuData.MenuTestCase}
    (h : tc ∈ MenuData.itemCases mi) :
    tc.menuNames = mi.name :: MenuData.optTruthy mi.mobileName ∧
    ∀ sns, tc.subItemNames = some sns →
      ∃ si ∈ mi.subItems.getD [], sns = si.desktop :: MenuData.optTruthy si.mobile := by
  cases hs : mi.subItems with
  | none =>
    simp [MenuData.itemCases, hs] at h
    subst h
    exact ⟨rfl, by simp⟩
  | some subs =>
    by_cases hl : subs.length > 0
    · simp [MenuData.itemCases, MenuData.subItemCases, hs, hl] at h
      obtain ⟨ix, si, hmem, rfl⟩ := h
      refine ⟨rfl, ?_⟩
      intro sns hsns
      refine ⟨si, ?_, (Option.some.inj hsns).symm⟩
      have hx2 : (ix, si) ∈ List.enumFrom 0 subs := by simpa [List.enum] using hmem
      simpa using enumFrom_snd_mem subs 0 (ix, si) hx2
    · simp [MenuData.itemCases, hs, hl] at h
      subst h
      exact ⟨rfl, by simp⟩

/-- C8: for every topology table, the generator yields exactly one test
case per leaf — the total count is the sum over entries of (number of
sub-items, or one when there are none) — and every generated case puts the
canonical entry name first in `menuNames` (truthy mobile alternate after
it) and, when a sub-entry list is present, the sub-item's desktop label
first in `subItemNames` (truthy mobile alternate after it): alternates come
after canonical names in fallback-priority order. -/
theorem menu_cases_one_per_leaf (items : List MenuData.MenuItem) :
    (MenuData.generateMenuTestCasesOf items).length =
        (items.map MenuData.leafCount).sum ∧
    ∀ tc ∈ MenuData.generateMenuTestCasesOf items, ∃ mi ∈ items,
      tc.menuNames = mi.name :: MenuData.optTruthy mi.mobileName ∧
      ∀ sns, tc.subItemNames = some sns →
        ∃ si ∈ mi.subItems.getD [], sns = si.desktop :: MenuData.optTruthy si.mobile := by
  induction items with
  | nil =>
    constructor
    · rfl
    · intro tc htc
      simp [MenuData.generateMenuTestCasesOf] at htc
  | cons mi rest ih =>
    constructor
    · rw [generateMenuTestCasesOf_cons, List.length_append, length_itemCases,
          List.map_cons, List.sum_cons, ih.1]
    · intro tc htc
      rw [generateMenuTestCasesOf_cons] at htc
      rcases List.mem_append.mp htc with h | h
      · exact ⟨mi, List.mem_cons_self _ _, mem_itemCases h⟩
      · obtain ⟨mi2, hmem, hrest⟩ := ih.2 tc h
        exact ⟨mi2, List.mem_cons_of_mem _ hmem, hrest⟩

/-- C8 witness: the theorem instantiated at the repository's table, whose
membership hypothesis is discharged at the first generated case. -/
theorem menu_cases_one_per_leaf_witness :
    ∃ mi ∈ MenuData.MENU_ITEMS,
      ({ menuNames := ["Dedicated Servers"], subItemNames := some ["Manage"],
         testName := "Dedicated Servers > Manage",
         isLastSubItem := some false } : MenuData.MenuTestCase).menuNames =
          mi.name :: MenuData.optTruthy mi.mobileName ∧
      ∀ sns,
        ({ menuNames := ["Dedicated Servers"], subItemNames := some ["Manage"],
           testName := "Dedicated Servers > Manage",
           isLastSubItem := some false } : MenuData.MenuTestCase).subItemNames = some sns →
        ∃ si ∈ mi.subItems.getD [],
          sns = si.desktop :: MenuData.optTruthy si.mobile := by
  exact (menu_cases_one_per_leaf MenuData.MENU_ITEMS).2 _ (by decide)

end ServersComSpec
